import Mathlib

/-!
Verification of the gridded-ensemble analysis notebook
(`notebooks/gmet_ensemble.ipynb`).

The notebook sequences xarray operations over a dataset with variables
`t_mean`, `pcp`, `elevation` on named dimensions `time`, `lat`, `lon`,
`ensemble`.  We shallowly embed the labeled-array data model: an array is a
list of named dimensions (each carrying its coordinate labels) together with
a data function keyed by a name-indexed position assignment.  Values are
`Option ℚ`: `none` models a missing value (NaN), matching xarray's default
skip-missing (skipna) semantics of the reductions used in the notebook;
floating-point reals are modelled by exact rationals, and the IEEE square
root inside the standard deviation by the library rational square root
(`Rat.sqrt`), which agrees with it on sign and definedness — the only facts
about the square root the claims use.
-/

namespace GMet

/-- Calendar date (year, month, day); the notebook's time coordinates. -/
structure Date where
  y : Int
  m : Nat
  d : Nat
deriving DecidableEq, Repr

/-- A coordinate label: numeric (lat/lon), a date (time), a string
(season), or a plain index (ensemble member number). -/
inductive Coord where
  | num (q : ℚ)
  | date (t : Date)
  | str (s : String)
  | idx (n : Nat)
deriving DecidableEq, Repr

/-- True exactly on date coordinates. -/
def Coord.isDate : Coord → Bool
  | .date _ => true
  | _ => false

/-- A named dimension together with its coordinate labels. -/
structure Dim where
  name : String
  coords : List Coord
deriving DecidableEq, Repr

/-- A labeled multi-dimensional array: named dimensions with coordinates,
and data addressed by a name-indexed position assignment.  `none` is a
missing value (NaN). -/
structure DataArray where
  dims : List Dim
  data : (String → Nat) → Option ℚ

/-- The dimension names of an array, in order. -/
def DataArray.names (a : DataArray) : List String := a.dims.map Dim.name

/-- The coordinate labels of the dimension named `d` (empty if absent). -/
def DataArray.coordsOf (a : DataArray) (d : String) : List Coord :=
  ((a.dims.find? (fun dm => dm.name == d)).map Dim.coords).getD []

/-- The defined (non-missing) values of a list of optional values. -/
def valids (l : List (Option ℚ)) : List ℚ := l.filterMap id

/-- Sum skipping missing values (xarray `sum` with default `skipna=True`,
`min_count=0`: an all-missing slice sums to `0`). -/
def aggSum (l : List (Option ℚ)) : Option ℚ := some (valids l).sum

/-- Mean skipping missing values; missing when no value is defined. -/
def aggMean (l : List (Option ℚ)) : Option ℚ :=
  if (valids l).length = 0 then none
  else some ((valids l).sum / ((valids l).length : ℚ))

/-- Maximum skipping missing values; missing when no value is defined. -/
def aggMax (l : List (Option ℚ)) : Option ℚ :=
  match valids l with
  | [] => none
  | x :: xs => some (xs.foldl max x)

/-- Minimum skipping missing values; missing when no value is defined. -/
def aggMin (l : List (Option ℚ)) : Option ℚ :=
  match valids l with
  | [] => none
  | x :: xs => some (xs.foldl min x)

/-- Population variance (xarray `std` default `ddof=0`) over the defined
values; missing when no value is defined. -/
def aggVar (l : List (Option ℚ)) : Option ℚ :=
  match aggMean l with
  | none => none
  | some mu => some (((valids l).map (fun x => (x - mu) ^ 2)).sum / ((valids l).length : ℚ))

/-- Standard deviation: square root of the variance. -/
def aggStd (l : List (Option ℚ)) : Option ℚ := (aggVar l).map Rat.sqrt

/-- The slice of `a` along dimension `d` through the point `f`: the values
obtained by letting the position on `d` run over its coordinates. -/
def axisVals (a : DataArray) (d : String) (f : String → Nat) : List (Option ℚ) :=
  (List.range (a.coordsOf d).length).map (fun k => a.data (Function.update f d k))

/-- Dimensional reduction over the named dimension `d` with aggregation
`agg` (xarray `mean` / `std` / `min` / `max` with a `dim` argument): the
reduced dimension is dropped, all other dimensions and their coordinates
are kept.  (xarray raises on a missing dimension name; the notebook only
reduces dimensions that are present, and all theorems below assume so.) -/
def DataArray.reduce (a : DataArray) (agg : List (Option ℚ) → Option ℚ) (d : String) : DataArray :=
  if d ∈ a.names then
    ⟨a.dims.filter (fun dm => dm.name != d), fun f => agg (axisVals a d f)⟩
  else a

/-- `mean(dim)` of the notebook. -/
def DataArray.meanDim (a : DataArray) (d : String) : DataArray := a.reduce aggMean d

/-- `std(dim)` of the notebook. -/
def DataArray.stdDim (a : DataArray) (d : String) : DataArray := a.reduce aggStd d

/-- `max(dim)` of the notebook. -/
def DataArray.maxDim (a : DataArray) (d : String) : DataArray := a.reduce aggMax d

/-- `min(dim)` of the notebook. -/
def DataArray.minDim (a : DataArray) (d : String) : DataArray := a.reduce aggMin d

/-- The values of `a` on the product of the `d₁` and `d₂` axes through the
point `f`.  Used for the joint reduction `max(('lat', 'lon'))`. -/
def pairVals (a : DataArray) (d₁ d₂ : String) (f : String → Nat) : List (Option ℚ) :=
  ((List.range (a.coordsOf d₁).length).map (fun k₁ =>
    (List.range (a.coordsOf d₂).length).map (fun k₂ =>
      a.data (Function.update (Function.update f d₁ k₁) d₂ k₂)))).flatten

/-- Joint reduction over two named dimensions (xarray `max(('lat', 'lon'))`):
both dimensions are dropped, all others kept. -/
def DataArray.reducePair (a : DataArray) (agg : List (Option ℚ) → Option ℚ)
    (d₁ d₂ : String) : DataArray :=
  if d₁ ∈ a.names ∧ d₂ ∈ a.names then
    ⟨a.dims.filter (fun dm => dm.name != d₁ && dm.name != d₂),
     fun f => agg (pairVals a d₁ d₂ f)⟩
  else a

/-- Keep-predicate of a label slice `slice(lo, hi)` on a numeric coordinate:
both endpoints inclusive, as in xarray label-based slicing. -/
def sliceKeep (lo hi : ℚ) : Coord → Bool
  | .num q => decide (lo ≤ q) && decide (q ≤ hi)
  | _ => false

/-- The positions (in order) of the coordinates in `cs` satisfying `p`. -/
def keepPositions (p : Coord → Bool) (cs : List Coord) : List Nat :=
  (List.range cs.length).filter (fun i => p (cs.getD i (.idx 0)))

/-- Label-based range selection `sel(d=slice(lo, hi))`.  The coordinates of
`d` are restricted to the inclusive range and the data is reindexed
accordingly.  As in xarray, a range matching no coordinate silently yields
an array whose `d` dimension has length zero — no error is raised. -/
def DataArray.selSlice (a : DataArray) (d : String) (lo hi : ℚ) : DataArray :=
  ⟨a.dims.map (fun dm =>
      if dm.name = d then ⟨dm.name, dm.coords.filter (sliceKeep lo hi)⟩ else dm),
   fun f => a.data (Function.update f d
      ((keepPositions (sliceKeep lo hi) (a.coordsOf d)).getD (f d) 0))⟩

/-- The positions of the time coordinates equal to the date `t`. -/
def matchPositions (a : DataArray) (t : Date) : List Nat :=
  keepPositions (fun c => c == Coord.date t) (a.coordsOf "time")

/-- Point selection by a literal date, `sel(time='1984-07-31')`.  As in
xarray/pandas partial datetime-string indexing on daily data: when exactly
one timestamp matches, the time dimension is dropped (scalar selection);
otherwise the matching timestamps are kept.  (On zero matches the library
raises a `KeyError`; the notebook's selection matches exactly one
timestamp, and the theorems below assume the unique-match case.) -/
def DataArray.selDate (a : DataArray) (t : Date) : DataArray :=
  if (matchPositions a t).length = 1 then
    ⟨a.dims.filter (fun dm => dm.name != "time"),
     fun f => a.data (Function.update f "time" ((matchPositions a t).getD 0 0))⟩
  else
    ⟨a.dims.map (fun dm =>
        if dm.name = "time" then ⟨dm.name, dm.coords.filter (fun c => c == Coord.date t)⟩ else dm),
     fun f => a.data (Function.update f "time" ((matchPositions a t).getD (f "time") 0))⟩

/-- Positional point selection `isel(d=k)`: the dimension is dropped. -/
def DataArray.iselAt (a : DataArray) (d : String) (k : Nat) : DataArray :=
  ⟨a.dims.filter (fun dm => dm.name != d),
   fun f => a.data (Function.update f d k)⟩

/-- Positional range selection `isel(d=slice(lo, hi))`: positions
`lo ≤ k < hi` are kept (Python slice semantics). -/
def DataArray.iselSlice (a : DataArray) (d : String) (lo hi : Nat) : DataArray :=
  ⟨a.dims.map (fun dm =>
      if dm.name = d then ⟨dm.name, (dm.coords.drop lo).take (hi - lo)⟩ else dm),
   fun f => a.data (Function.update f d (f d + lo))⟩

/-- Missing-propagating subtraction on values. -/
def osub : Option ℚ → Option ℚ → Option ℚ
  | some x, some y => some (x - y)
  | _, _ => none

/-- Elementwise broadcast subtraction `a - b` where the dimensions of `b`
are among those of `a` with the same coordinates (xarray name-based
broadcasting, as in `temp - temp_ens_mean`): `b` simply ignores the
positions of the dimensions it does not carry. -/
def DataArray.subB (a b : DataArray) : DataArray :=
  ⟨a.dims, fun f => osub (a.data f) (b.data f)⟩

/-- `a.where(p(cond))`: keep the value of `a` where the co-located value of
`cond` is defined and satisfies `p`; yield a missing value elsewhere
(xarray `where` puts NaN where the condition fails, and a NaN condition
fails). -/
def DataArray.whereGate (a cond : DataArray) (p : ℚ → Bool) : DataArray :=
  ⟨a.dims, fun f =>
    match cond.data f with
    | some t => if p t then a.data f else none
    | none => none⟩

/-- Bucket label of annual resampling `resample(time='AS')`: the start of
the calendar year. -/
def yearLabel (t : Date) : Date := ⟨t.y, 1, 1⟩

/-- Bucket label of quarterly resampling anchored in March,
`resample(time='QS-Mar')`: the start of the enclosing quarter
(Mar, Jun, Sep or Dec 1st; January and February belong to the December
quarter of the previous year). -/
def qsMarLabel (t : Date) : Date :=
  if t.m < 3 then ⟨t.y - 1, 12, 1⟩ else ⟨t.y, t.m - (t.m - 3) % 3, 1⟩

/-- Lift a date-to-date bucket labelling to coordinates. -/
def labelC (lab : Date → Date) : Coord → Coord
  | .date t => .date (lab t)
  | c => c

/-- The bucket labels of a resampling of the time coordinates `cs`:
the distinct values of the labelling, in order of appearance (for the
notebook's chronologically sorted time axis this is chronological order,
matching the bins produced by pandas/xarray `resample` on data whose every
bin is inhabited). -/
def bucketLabels (lab : Coord → Coord) (cs : List Coord) : List Coord :=
  (cs.map lab).dedup

/-- Temporal resampling `resample(time=freq).agg('time')`: the time
coordinates are replaced by the bucket labels, and each bucket holds the
aggregation of the values at the source timestamps it contains. -/
def DataArray.resample (a : DataArray) (lab : Coord → Coord)
    (agg : List (Option ℚ) → Option ℚ) : DataArray :=
  ⟨a.dims.map (fun dm =>
      if dm.name = "time" then ⟨dm.name, bucketLabels lab (a.coordsOf "time")⟩ else dm),
   fun f => agg ((keepPositions
        (fun c => lab c == (bucketLabels lab (a.coordsOf "time")).getD (f "time") (.idx 0))
        (a.coordsOf "time")).map
      (fun p => a.data (Function.update f "time" p)))⟩

/-- Meteorological season of a date, as produced by xarray `time.season`:
DJF = Dec-Feb, MAM = Mar-May, JJA = Jun-Aug, SON = Sep-Nov. -/
def seasonOf (t : Date) : String :=
  if t.m = 12 ∨ t.m ≤ 2 then "DJF"
  else if t.m ≤ 5 then "MAM"
  else if t.m ≤ 8 then "JJA"
  else "SON"

/-- Season key of a time coordinate. -/
def seasonC : Coord → String
  | .date t => seasonOf t
  | _ => ""

/-- Insert a string into a list sorted in nondecreasing order. -/
def insertSorted (s : String) : List String → List String
  | [] => [s]
  | x :: xs => if s ≤ x then s :: x :: xs else x :: insertSorted s xs

/-- Insertion sort on strings; models the sorted (alphabetical) order in
which pandas/xarray `groupby` emits its group keys. -/
def sortStrings : List String → List String
  | [] => []
  | x :: xs => insertSorted x (sortStrings xs)

/-- The group keys of `groupby('time.season')` over the time coordinates
`cs`: the distinct season keys, alphabetically sorted (the natural order
the grouping operation produces). -/
def seasonKeys (cs : List Coord) : List String :=
  sortStrings (cs.map seasonC).dedup

/-- `groupby('time.season').mean('time')`: the time dimension is replaced,
in place, by a `season` dimension indexed by the alphabetically sorted
distinct season keys; each group holds the mean (skipping missing values)
of the values at the timestamps of that season. -/
def DataArray.groupbySeasonMean (a : DataArray) : DataArray :=
  ⟨a.dims.map (fun dm =>
      if dm.name = "time" then ⟨"season", (seasonKeys (a.coordsOf "time")).map Coord.str⟩ else dm),
   fun f => aggMean ((keepPositions
        (fun c => seasonC c == (seasonKeys (a.coordsOf "time")).getD (f "season") "")
        (a.coordsOf "time")).map
      (fun p => a.data (Function.update f "time" p)))⟩

/-- Label-list selection `sel(season=['DJF', 'MAM', 'JJA', 'SON'])`:
the coordinates of `d` are replaced by the requested labels, in the
requested order, and the data is reindexed by looking each label up among
the original coordinates. -/
def DataArray.selLabels (a : DataArray) (d : String) (ls : List Coord) : DataArray :=
  ⟨a.dims.map (fun dm => if dm.name = d then ⟨dm.name, ls⟩ else dm),
   fun f => a.data (Function.update f d
      ((a.coordsOf d).findIdx (fun c => c == ls.getD (f d) (.idx 0))))⟩

/-- The dataset opened by the notebook: variables `t_mean`, `pcp` and
`elevation`. -/
structure Dataset where
  t_mean : DataArray
  pcp : DataArray
  elevation : DataArray

/-- Dataset-level range selection: applied to every variable. -/
def Dataset.selSlice (ds : Dataset) (d : String) (lo hi : ℚ) : Dataset :=
  ⟨ds.t_mean.selSlice d lo hi, ds.pcp.selSlice d lo hi, ds.elevation.selSlice d lo hi⟩

/-- The literal date selected in the single-day uncertainty analysis. -/
def july31 : Date := ⟨1984, 7, 31⟩

/-- `temp = ds['t_mean'].sel(time='1984-07-31')`. -/
def temp (ds : Dataset) : DataArray := ds.t_mean.selDate july31

/-- `temp_ens_mean = temp.mean('ensemble')`. -/
def temp_ens_mean (ds : Dataset) : DataArray := (temp ds).meanDim "ensemble"

/-- `temp_errors = temp - temp_ens_mean`. -/
def temp_errors (ds : Dataset) : DataArray := (temp ds).subB (temp_ens_mean ds)

/-- `temp_std_errors = temp_errors.std('ensemble')`. -/
def temp_std_errors (ds : Dataset) : DataArray := (temp_errors ds).stdDim "ensemble"

/-- `temp_mean = ds['t_mean'].mean(dim='time')`. -/
def temp_mean (ds : Dataset) : DataArray := ds.t_mean.meanDim "time"

/-- `spread = temp_mean.max(dim='ensemble') - temp_mean.min(dim='ensemble')`. -/
def spread (ds : Dataset) : DataArray :=
  ((temp_mean ds).maxDim "ensemble").subB ((temp_mean ds).minDim "ensemble")

/-- `da_snow = ds['pcp'].where(ds['t_mean'] < 0.).resample(time='QS-Mar').sum('time')`. -/
def da_snow (ds : Dataset) : DataArray :=
  (ds.pcp.whereGate ds.t_mean (fun t => decide (t < 0))).resample (labelC qsMarLabel) aggSum

/-- The fixed display order of the seasons used by the notebook. -/
def seasonFixedOrder : List String := ["DJF", "MAM", "JJA", "SON"]

/-- `da_snow.isel(ensemble=slice(0, 4)).groupby('time.season').mean('time')`
(the value of `seasonal_snow` before the explicit season reordering). -/
def seasonal_snow_raw (ds : Dataset) : DataArray :=
  ((da_snow ds).iselSlice "ensemble" 0 4).groupbySeasonMean

/-- `seasonal_snow = seasonal_snow.sel(season=['DJF', 'MAM', 'JJA', 'SON'])`. -/
def seasonal_snow (ds : Dataset) : DataArray :=
  (seasonal_snow_raw ds).selLabels "season" (seasonFixedOrder.map Coord.str)

/-- `buf = 0.25`. -/
def buf : ℚ := 0.25

/-- Austin latitude, `30.2672`. -/
def austinLat : ℚ := 30.2672

/-- Austin longitude, `-97.7431`. -/
def austinLon : ℚ := -97.7431

/-- `ds_tx = ds.sel(lon=slice(-97.7431-buf, -97.7431+buf), lat=slice(30.2672-buf, 30.2672+buf))`. -/
def ds_tx (ds : Dataset) : Dataset :=
  (ds.selSlice "lon" (austinLon - buf) (austinLon + buf)).selSlice "lat"
    (austinLat - buf) (austinLat + buf)

/-- `pcp_ann_max = ds_tx['pcp'].resample(time='AS').max('time')`. -/
def pcp_ann_max (ds : Dataset) : DataArray :=
  (ds_tx ds).pcp.resample (labelC yearLabel) aggMax

/-- `pcp_ann_max_ts = pcp_ann_max.max(('lat', 'lon'))`. -/
def pcp_ann_max_ts (ds : Dataset) : DataArray :=
  (pcp_ann_max ds).reducePair aggMax "lat" "lon"

/-- The elevation field selected for plotting: ensemble member 0 when the
variable carries an `ensemble` dimension, the variable itself otherwise
(the `if 'ensemble' in ds['elevation'].dims` branch of the notebook). -/
def elevation0 (ds : Dataset) : DataArray :=
  if "ensemble" ∈ ds.elevation.names then ds.elevation.iselAt "ensemble" 0 else ds.elevation

/-- `elevation = elevation.where(elevation > 0)`. -/
def elevationMasked (ds : Dataset) : DataArray :=
  (elevation0 ds).whereGate (elevation0 ds) (fun v => decide (0 < v))

/-- The lazy computation graph built by the notebook's expressions before
`compute`/`persist` is called: a tree of the deferred operations used in
the notebook, rooted at source arrays. -/
inductive Graph where
  | source (a : DataArray)
  | meanOp (d : String) (g : Graph)
  | stdOp (d : String) (g : Graph)
  | maxOp (d : String) (g : Graph)
  | minOp (d : String) (g : Graph)
  | maxPairOp (d₁ d₂ : String) (g : Graph)
  | subOp (g₁ g₂ : Graph)
  | selSliceOp (d : String) (lo hi : ℚ) (g : Graph)
  | selDateOp (t : Date) (g : Graph)
  | iselAtOp (d : String) (k : Nat) (g : Graph)
  | iselSliceOp (d : String) (lo hi : Nat) (g : Graph)
  | whereOp (g cond : Graph) (p : ℚ → Bool)
  | resampleSumQSMar (g : Graph)
  | resampleMaxAnnual (g : Graph)
  | groupSeasonOp (g : Graph)
  | selLabelsOp (d : String) (ls : List Coord) (g : Graph)

/-- Denotation of a computation graph: the array its materialization
produces.  Every node is one of the pure labeled-array operations above,
so evaluation is a pure function of the graph. -/
def evalG : Graph → DataArray
  | .source a => a
  | .meanOp d g => (evalG g).meanDim d
  | .stdOp d g => (evalG g).stdDim d
  | .maxOp d g => (evalG g).maxDim d
  | .minOp d g => (evalG g).minDim d
  | .maxPairOp d₁ d₂ g => (evalG g).reducePair aggMax d₁ d₂
  | .subOp g₁ g₂ => (evalG g₁).subB (evalG g₂)
  | .selSliceOp d lo hi g => (evalG g).selSlice d lo hi
  | .selDateOp t g => (evalG g).selDate t
  | .iselAtOp d k g => (evalG g).iselAt d k
  | .iselSliceOp d lo hi g => (evalG g).iselSlice d lo hi
  | .whereOp g c p => (evalG g).whereGate (evalG c) p
  | .resampleSumQSMar g => (evalG g).resample (labelC qsMarLabel) aggSum
  | .resampleMaxAnnual g => (evalG g).resample (labelC yearLabel) aggMax
  | .groupSeasonOp g => (evalG g).groupbySeasonMean
  | .selLabelsOp d ls g => (evalG g).selLabels d ls

/-- Materialization with a bounded retry policy, `persist(retries=r)`:
attempts `0, 1, ..., r` are tried; `failAt k` tells whether worker failure
aborts attempt `k`.  The first surviving attempt evaluates the (pure)
graph; if every attempt fails the failure is propagated (`none`). -/
def persistG (retries : Nat) (failAt : Nat → Bool) (g : Graph) : Option DataArray :=
  if (List.range (retries + 1)).any (fun k => !failAt k) then some (evalG g) else none

/-- The independent analyses the notebook materializes, each reading the
shared dataset handle. -/
inductive Analysis where
  | elevationFig
  | singleDayUncertainty
  | intraEnsembleRange
  | seasonalSnowfall
  | austinPrecip

/-- The derived array produced by one analysis: a pure function of the
dataset handle. -/
def runAnalysis (ds : Dataset) : Analysis → DataArray
  | .elevationFig => elevationMasked ds
  | .singleDayUncertainty => temp_std_errors ds
  | .intraEnsembleRange => spread ds
  | .seasonalSnowfall => seasonal_snow ds
  | .austinPrecip => pcp_ann_max_ts ds

/-- The session state: the dataset handle loaded once at session start and
the derived arrays materialized so far. -/
structure Session where
  ds : Dataset
  outputs : List DataArray

/-- Run one analysis: a new derived array is appended; the dataset handle
is read, never written. -/
def stepS (s : Session) (a : Analysis) : Session :=
  ⟨s.ds, s.outputs ++ [runAnalysis s.ds a]⟩

/-- Run a sequence of analyses against the session. -/
def runAll (s : Session) (as : List Analysis) : Session := as.foldl stepS s

/-- A name-indexed position assignment that is `0` everywhere; concrete
point used by witnesses. -/
def fZero : String → Nat := fun _ => 0

/-- An empty placeholder variable for fixture datasets. -/
def emptyArr : DataArray := ⟨[], fun _ => none⟩

/-- Fixture: a `t_mean`-shaped array with one timestamp (1984-07-31), one
latitude, one longitude and 100 ensemble members. -/
def tMean100 : DataArray :=
  ⟨[⟨"time", [.date july31]⟩, ⟨"lat", [.num 30]⟩, ⟨"lon", [.num (-97)]⟩,
    ⟨"ensemble", (List.range 100).map Coord.idx⟩],
   fun f => some ((f "ensemble" : ℚ) / 10)⟩

/-- Fixture dataset for the single-day uncertainty witness. -/
def dsW2 : Dataset := ⟨tMean100, emptyArr, emptyArr⟩

/-- Fixture: a small precipitation array over two years, two ensemble
members and a 1×1 spatial grid inside the Austin bounding box. -/
def pcpSmall : DataArray :=
  ⟨[⟨"time", [.date ⟨1980, 1, 1⟩, .date ⟨1980, 7, 1⟩, .date ⟨1981, 7, 1⟩]⟩,
    ⟨"lat", [.num 30.3]⟩, ⟨"lon", [.num (-97.7)]⟩,
    ⟨"ensemble", [.idx 0, .idx 1]⟩],
   fun f => some ((f "time" : ℚ) + (f "ensemble" : ℚ))⟩

/-- Fixture dataset for the Austin time-series claim: `t_mean` shares the
shape of `pcp`. -/
def dsC1 : Dataset := ⟨⟨pcpSmall.dims, fun f => some (-(f "time" : ℚ))⟩, pcpSmall, emptyArr⟩

/-- Fixture: a one-dimensional array over two latitudes, used for the
empty-selection claim. -/
def arrC3 : DataArray := ⟨[⟨"lat", [.num 30, .num 31]⟩], fun _ => some 1⟩

/-- Fixture: a time × ensemble array for the reduction-invariant witness. -/
def arrC4 : DataArray :=
  ⟨[⟨"time", [.date ⟨1980, 1, 1⟩, .date ⟨1980, 1, 2⟩]⟩, ⟨"ensemble", [.idx 0, .idx 1]⟩],
   fun f => some ((f "time" : ℚ) - (f "ensemble" : ℚ))⟩

/-- Fixture: an ensemble × lat array for the mean-centering witness. -/
def arrC5 : DataArray :=
  ⟨[⟨"ensemble", [.idx 0, .idx 1, .idx 2]⟩, ⟨"lat", [.num 30, .num 31]⟩],
   fun f => if f "ensemble" = 0 ∧ f "lat" = 0 then none
            else some ((f "ensemble" : ℚ) * 2 + (f "lat" : ℚ))⟩

/-- Fixture dataset for the seasonal-snowfall claims: daily-like timestamps
in all four seasons, a 1×1 grid, five ensemble members. -/
def dsW6 : Dataset :=
  ⟨⟨[⟨"time", [.date ⟨1980, 1, 15⟩, .date ⟨1980, 3, 15⟩, .date ⟨1980, 6, 15⟩,
       .date ⟨1980, 9, 15⟩, .date ⟨1980, 12, 15⟩]⟩,
     ⟨"lat", [.num 40]⟩, ⟨"lon", [.num (-100)]⟩,
     ⟨"ensemble", (List.range 5).map Coord.idx⟩],
    fun f => some ((if f "time" = 2 then 5 else -5 : ℚ))⟩,
   ⟨[⟨"time", [.date ⟨1980, 1, 15⟩, .date ⟨1980, 3, 15⟩, .date ⟨1980, 6, 15⟩,
       .date ⟨1980, 9, 15⟩, .date ⟨1980, 12, 15⟩]⟩,
     ⟨"lat", [.num 40]⟩, ⟨"lon", [.num (-100)]⟩,
     ⟨"ensemble", (List.range 5).map Coord.idx⟩],
    fun f => some ((f "time" : ℚ) + (f "ensemble" : ℚ))⟩,
   emptyArr⟩

/-- Fixture dataset for the elevation-mask witness: a 1×2 grid with one
negative and one positive elevation, no ensemble dimension. -/
def dsW10 : Dataset :=
  ⟨emptyArr, emptyArr,
   ⟨[⟨"lat", [.num 40]⟩, ⟨"lon", [.num (-100), .num (-99)]⟩],
    fun f => if f "lon" = 0 then some (-3) else some 5⟩⟩

/-- A position assignment pointing at the positive-elevation cell of
`dsW10`. -/
def fPos : String → Nat := fun d => if d = "lon" then 1 else 0

/-- Fixture graph for the materialization claim: the intra-ensemble spread
pipeline over `arrC4`. -/
def gW : Graph :=
  .subOp (.maxOp "ensemble" (.meanOp "time" (.source arrC4)))
         (.minOp "ensemble" (.meanOp "time" (.source arrC4)))

/-- Failure oracle: the first attempt fails, later ones succeed. -/
def oracleFailFirst : Nat → Bool := fun k => k = 0

/-- Failure oracle: no attempt fails. -/
def oracleOk : Nat → Bool := fun _ => false

/-- Position of the season labelled `s` among the season coordinates of an
array (how a renderer looks a season up by label). -/
def seasonIdx (x : DataArray) (s : String) : Nat :=
  (x.coordsOf "season").findIdx (fun c => c == Coord.str s)

/-- The value a renderer reads for season `s` at the point `f`: the data at
the position of the label `s` along the `season` dimension. -/
def valueAtSeason (x : DataArray) (s : String) (f : String → Nat) : Option ℚ :=
  x.data (Function.update f "season" (seasonIdx x s))

/-- The snowfall mask of `pcp.where(t_mean < 0.)` at one cell: the
precipitation value where the mean temperature is defined and strictly
negative, a missing value (not zero) everywhere else. -/
def maskedVal (tm pc : Option ℚ) : Option ℚ :=
  match tm with
  | some t => if t < 0 then pc else none
  | none => none

theorem subB_dims (a b : DataArray) : (a.subB b).dims = a.dims := rfl

theorem subB_names (a b : DataArray) : (a.subB b).names = a.names := rfl

theorem subB_data (a b : DataArray) (f : String → Nat) :
    (a.subB b).data f = osub (a.data f) (b.data f) := rfl

theorem whereGate_dims (a c : DataArray) (p : ℚ → Bool) : (a.whereGate c p).dims = a.dims := rfl

theorem whereGate_coordsOf (a c : DataArray) (p : ℚ → Bool) (d : String) :
    (a.whereGate c p).coordsOf d = a.coordsOf d := rfl

theorem resample_dims (a : DataArray) (lab : Coord → Coord) (agg : List (Option ℚ) → Option ℚ) :
    (a.resample lab agg).dims = a.dims.map (fun dm =>
      if dm.name = "time" then ⟨dm.name, bucketLabels lab (a.coordsOf "time")⟩ else dm) := rfl

theorem resample_data (a : DataArray) (lab : Coord → Coord) (agg : List (Option ℚ) → Option ℚ)
    (f : String → Nat) :
    (a.resample lab agg).data f = agg ((keepPositions
        (fun c => lab c == (bucketLabels lab (a.coordsOf "time")).getD (f "time") (.idx 0))
        (a.coordsOf "time")).map
      (fun p => a.data (Function.update f "time" p))) := rfl

theorem iselSlice_dims (a : DataArray) (d : String) (lo hi : Nat) :
    (a.iselSlice d lo hi).dims = a.dims.map (fun dm =>
      if dm.name = d then ⟨dm.name, (dm.coords.drop lo).take (hi - lo)⟩ else dm) := rfl

theorem iselSlice_data (a : DataArray) (d : String) (lo hi : Nat) (f : String → Nat) :
    (a.iselSlice d lo hi).data f = a.data (Function.update f d (f d + lo)) := rfl

theorem groupbySeasonMean_dims (a : DataArray) :
    a.groupbySeasonMean.dims = a.dims.map (fun dm =>
      if dm.name = "time" then ⟨"season", (seasonKeys (a.coordsOf "time")).map Coord.str⟩
      else dm) := rfl

theorem groupbySeasonMean_data (a : DataArray) (f : String → Nat) :
    a.groupbySeasonMean.data f = aggMean ((keepPositions
        (fun c => seasonC c == (seasonKeys (a.coordsOf "time")).getD (f "season") "")
        (a.coordsOf "time")).map
      (fun p => a.data (Function.update f "time" p))) := rfl

theorem selLabels_dims (a : DataArray) (d : String) (ls : List Coord) :
    (a.selLabels d ls).dims = a.dims.map (fun dm => if dm.name = d then ⟨dm.name, ls⟩ else dm) :=
  rfl

theorem selLabels_data (a : DataArray) (d : String) (ls : List Coord) (f : String → Nat) :
    (a.selLabels d ls).data f = a.data (Function.update f d
      ((a.coordsOf d).findIdx (fun c => c == ls.getD (f d) (.idx 0)))) := rfl

theorem reduce_dims (a : DataArray) (agg : List (Option ℚ) → Option ℚ) (d : String)
    (h : d ∈ a.names) :
    (a.reduce agg d).dims = a.dims.filter (fun dm => dm.name != d) := by
  rw [DataArray.reduce, if_pos h]

theorem reduce_data (a : DataArray) (agg : List (Option ℚ) → Option ℚ) (d : String)
    (h : d ∈ a.names) :
    (a.reduce agg d).data = fun f => agg (axisVals a d f) := by
  rw [DataArray.reduce, if_pos h]

theorem reducePair_dims (a : DataArray) (agg : List (Option ℚ) → Option ℚ) (d₁ d₂ : String)
    (h₁ : d₁ ∈ a.names) (h₂ : d₂ ∈ a.names) :
    (a.reducePair agg d₁ d₂).dims = a.dims.filter (fun dm => dm.name != d₁ && dm.name != d₂) := by
  rw [DataArray.reducePair, if_pos ⟨h₁, h₂⟩]

theorem selDate_dims (a : DataArray) (t : Date) (h : (matchPositions a t).length = 1) :
    (a.selDate t).dims = a.dims.filter (fun dm => dm.name != "time") := by
  rw [DataArray.selDate, if_pos h]

/-- C4: every dimensional reduction used by the notebook — mean, standard
deviation, min or max over a named dimension, and the joint max over two
named dimensions — removes exactly the reduced dimension(s) from the
dimension list and keeps every retained dimension together with its
coordinate labels unchanged (the filtered list keeps the retained `Dim`
records, hence their names and coordinate values, in order). -/
theorem reduction_removes_only_reduced_dims (a : DataArray) (d d₂ : String)
    (h : d ∈ a.names) (h₂ : d₂ ∈ a.names) :
    (a.meanDim d).dims = a.dims.filter (fun dm => dm.name != d) ∧
    (a.stdDim d).dims = a.dims.filter (fun dm => dm.name != d) ∧
    (a.minDim d).dims = a.dims.filter (fun dm => dm.name != d) ∧
    (a.maxDim d).dims = a.dims.filter (fun dm => dm.name != d) ∧
    (a.reducePair aggMax d d₂).dims = a.dims.filter (fun dm => dm.name != d && dm.name != d₂) :=
  ⟨reduce_dims a aggMean d h, reduce_dims a aggStd d h, reduce_dims a aggMin d h,
   reduce_dims a aggMax d h, reducePair_dims a aggMax d d₂ h h₂⟩

/-- Witness for the reduction invariant at a concrete array. -/
theorem reduction_removes_only_reduced_dims_witness :
    ("ensemble" ∈ arrC4.names ∧ "time" ∈ arrC4.names) ∧
    (arrC4.meanDim "ensemble").dims = arrC4.dims.filter (fun dm => dm.name != "ensemble") :=
  ⟨⟨by decide, by decide⟩,
   (reduction_removes_only_reduced_dims arrC4 "ensemble" "time" (by decide) (by decide)).1⟩

/-- Counterexample to C3 as stated: the notebook's label-range selection,
applied where the requested range matches no coordinate entry, does not
fail — it silently returns an array whose selected dimension has length
zero (this is xarray's behavior for label slices). -/
theorem empty_slice_counterexample :
    (arrC3.selSlice "lat" 5 6).dims = [⟨"lat", []⟩] ∧
    ((arrC3.selSlice "lat" 5 6).coordsOf "lat").length = 0 := by
  decide

theorem find?_coords_modify (dims : List Dim) (d : String) (g : List Coord → List Coord)
    (hg : g [] = []) :
    ((((dims.map (fun dm => if dm.name = d then Dim.mk dm.name (g dm.coords) else dm)).find?
        (fun dm => dm.name == d)).map Dim.coords).getD []) =
      g ((((dims.find? (fun dm => dm.name == d)).map Dim.coords).getD [])) := by
  induction dims with
  | nil => simpa using hg.symm
  | cons x xs ih =>
      by_cases hx : x.name = d
      · simp [List.find?_cons, hx]
      · simp only [List.map_cons, if_neg hx]
        rw [List.find?_cons_of_neg, List.find?_cons_of_neg]
        · exact ih
        · simpa using hx
        · simpa using hx

/-- Amended C3: a label-range selection whose range matches zero
coordinate entries silently returns an array whose selected dimension is
empty (length zero); no error condition is raised. -/
theorem empty_slice_returns_empty (a : DataArray) (d : String) (lo hi : ℚ)
    (h : ∀ c ∈ a.coordsOf d, sliceKeep lo hi c = false) :
    (a.selSlice d lo hi).coordsOf d = [] := by
  have hm : (a.selSlice d lo hi).coordsOf d = (a.coordsOf d).filter (sliceKeep lo hi) := by
    simp only [DataArray.selSlice, DataArray.coordsOf]
    exact find?_coords_modify a.dims d (fun cs => cs.filter (sliceKeep lo hi)) rfl
  rw [hm, List.filter_eq_nil_iff]
  intro c hc
  simp [h c hc]

/-- Witness for the amended empty-selection behavior at a concrete array
and range. -/
theorem empty_slice_returns_empty_witness :
    (∀ c ∈ arrC3.coordsOf "lat", sliceKeep 5 6 c = false) ∧
    (arrC3.selSlice "lat" 5 6).coordsOf "lat" = [] :=
  ⟨by decide, empty_slice_returns_empty arrC3 "lat" 5 6 (by decide)⟩

/-- C7: materialization is idempotent and deterministic.  A materialization
that succeeds within the retry bound — on any pattern of prior failed
attempts — returns exactly the evaluation of the (pure) computation graph,
so re-running it after a failed attempt gives the same result as a single
successful run. -/
theorem persist_deterministic (g : Graph) (r : Nat) (o₁ o₂ : Nat → Bool) (v₁ v₂ : DataArray)
    (h₁ : persistG r o₁ g = some v₁) (h₂ : persistG r o₂ g = some v₂) :
    v₁ = evalG g ∧ v₂ = evalG g ∧ v₁ = v₂ := by
  rw [persistG] at h₁ h₂
  have e₁ : v₁ = evalG g := by
    by_cases hc : (List.range (r + 1)).any (fun k => !o₁ k) = true
    · rw [if_pos hc] at h₁; exact (Option.some.injEq _ _ ▸ h₁ : _ = _).symm
    · rw [if_neg hc] at h₁; cases h₁
  have e₂ : v₂ = evalG g := by
    by_cases hc : (List.range (r + 1)).any (fun k => !o₂ k) = true
    · rw [if_pos hc] at h₂; exact (Option.some.injEq _ _ ▸ h₂ : _ = _).symm
    · rw [if_neg hc] at h₂; cases h₂
  exact ⟨e₁, e₂, e₁.trans e₂.symm⟩

/-- Witness: with retries = 2, a run whose first attempt fails and a run
with no failures both materialize the spread pipeline to the same value. -/
theorem persist_deterministic_witness :
    persistG 2 oracleFailFirst gW = some (evalG gW) ∧
    persistG 2 oracleOk gW = some (evalG gW) ∧
    evalG gW = evalG gW :=
  ⟨rfl, rfl,
   (persist_deterministic gW 2 oracleFailFirst oracleOk (evalG gW) (evalG gW) rfl rfl).2.2⟩

theorem runAll_spec (as : List Analysis) (s : Session) :
    (runAll s as).ds = s.ds ∧
    (runAll s as).outputs = s.outputs ++ as.map (runAnalysis s.ds) := by
  induction as generalizing s with
  | nil => simp [runAll]
  | cons a as ih =>
      obtain ⟨hd, ho⟩ := ih (stepS s a)
      have hstep : runAll s (a :: as) = runAll (stepS s a) as := rfl
      constructor
      · rw [hstep, hd]
        rfl
      · rw [hstep, ho]
        simp [stepS]

/-- C8: the dataset handle loaded at session start is never mutated — after
any sequence of analyses (each applying selections, reductions,
resamplings, groupings and materialization) the session's dataset equals
the original, and each analysis's output is a pure function of the
original dataset alone (independent of its position in the sequence, so
independent analyses may be materialized in any order with the same
results). -/
theorem session_dataset_read_only (ds : Dataset) (as : List Analysis) :
    (runAll ⟨ds, []⟩ as).ds = ds ∧
    (runAll ⟨ds, []⟩ as).outputs = as.map (runAnalysis ds) := by
  have h := runAll_spec as ⟨ds, []⟩
  simpa using h

/-- C10: the rendered elevation field is ensemble member 0 exactly when the
elevation variable carries an ensemble dimension (the variable itself
otherwise), and masking replaces every cell with elevation ≤ 0 by a
missing value while cells with elevation > 0 keep their value (a missing
cell stays missing). -/
theorem elevation_member_and_mask (ds : Dataset) :
    ("ensemble" ∈ ds.elevation.names → elevation0 ds = ds.elevation.iselAt "ensemble" 0) ∧
    ("ensemble" ∉ ds.elevation.names → elevation0 ds = ds.elevation) ∧
    (∀ f v, (elevation0 ds).data f = some v →
      ((v ≤ 0 → (elevationMasked ds).data f = none) ∧
       (0 < v → (elevationMasked ds).data f = some v))) ∧
    (∀ f, (elevation0 ds).data f = none → (elevationMasked ds).data f = none) := by
  refine ⟨fun h => by rw [elevation0, if_pos h], fun h => by rw [elevation0, if_neg h], ?_, ?_⟩
  · intro f v hv
    constructor
    · intro hle
      simp only [elevationMasked, DataArray.whereGate]
      rw [hv]
      simp [not_lt.mpr hle]
    · intro hlt
      simp only [elevationMasked, DataArray.whereGate]
      rw [hv]
      simp [hlt]
  · intro f hv
    simp only [elevationMasked, DataArray.whereGate]
    rw [hv]

/-- Witness: on a concrete elevation field without an ensemble dimension,
the cell at elevation −3 is masked to a missing value and the cell at
elevation 5 keeps its value. -/
theorem elevation_member_and_mask_witness :
    (elevation0 dsW10).data fZero = some (-3) ∧
    (elevation0 dsW10).data fPos = some 5 ∧
    (elevationMasked dsW10).data fZero = none ∧
    (elevationMasked dsW10).data fPos = some 5 := by
  have h1 : (elevation0 dsW10).data fZero = some (-3) := by decide
  have h2 : (elevation0 dsW10).data fPos = some 5 := by decide
  exact ⟨h1, h2,
    ((elevation_member_and_mask dsW10).2.2.1 fZero (-3) h1).1 (by norm_num),
    ((elevation_member_and_mask dsW10).2.2.1 fPos 5 h2).2 (by norm_num)⟩

/-- C2: selecting the literal date, averaging over the ensemble,
subtracting the mean from each member and taking the per-point standard
deviation over the ensemble yields an array over exactly (`lat`, `lon`) —
with the original latitude and longitude coordinates, and neither
`ensemble` nor `time` remaining — whose every defined value is ≥ 0. -/
theorem single_day_std_errors_shape_nonneg (ds : Dataset) (tc lac loc ec : List Coord)
    (hdims : ds.t_mean.dims = [⟨"time", tc⟩, ⟨"lat", lac⟩, ⟨"lon", loc⟩, ⟨"ensemble", ec⟩])
    (hone : (matchPositions ds.t_mean july31).length = 1)
    (hens : ec.length = 100) :
    (temp_std_errors ds).dims = [⟨"lat", lac⟩, ⟨"lon", loc⟩] ∧
    ∀ f v, (temp_std_errors ds).data f = some v → 0 ≤ v := by
  have htd : (temp ds).dims = [⟨"lat", lac⟩, ⟨"lon", loc⟩, ⟨"ensemble", ec⟩] := by
    rw [temp, selDate_dims ds.t_mean july31 hone, hdims]
    rfl
  have hmem : "ensemble" ∈ (temp_errors ds).names := by
    show "ensemble" ∈ (temp ds).names
    rw [DataArray.names, htd]
    show "ensemble" ∈ ["lat", "lon", "ensemble"]
    decide
  constructor
  · rw [temp_std_errors, DataArray.stdDim, reduce_dims _ aggStd _ hmem]
    simp only [temp_errors, subB_dims]
    rw [htd]
    rfl
  · intro f v hv
    rw [temp_std_errors, DataArray.stdDim] at hv
    simp only [reduce_data _ aggStd _ hmem] at hv
    simp only [aggStd] at hv
    obtain ⟨w, _, rfl⟩ := Option.map_eq_some'.mp hv
    exact Rat.sqrt_nonneg w

/-- Witness for the single-day uncertainty claim: a dataset with one
matching timestamp, a 1×1 grid and 100 ensemble members. -/
theorem single_day_std_errors_shape_nonneg_witness :
    tMean100.dims = [⟨"time", [.date july31]⟩, ⟨"lat", [.num 30]⟩, ⟨"lon", [.num (-97)]⟩,
      ⟨"ensemble", (List.range 100).map Coord.idx⟩] ∧
    (matchPositions dsW2.t_mean july31).length = 1 ∧
    ((List.range 100).map Coord.idx).length = 100 ∧
    (temp_std_errors dsW2).dims = [⟨"lat", [.num 30]⟩, ⟨"lon", [.num (-97)]⟩] :=
  ⟨rfl, by decide, by decide,
   (single_day_std_errors_shape_nonneg dsW2 [.date july31] [.num 30] [.num (-97)]
      ((List.range 100).map Coord.idx) rfl (by decide) (by decide)).1⟩

theorem valids_all_none (l : List (Option ℚ)) (h : ∀ x ∈ l, x = none) : valids l = [] := by
  induction l with
  | nil => rfl
  | cons a l ih =>
      have ha := h a (List.mem_cons_self a l)
      subst ha
      simp only [valids, List.filterMap_cons, id]
      exact ih (fun x hx => h x (List.mem_cons_of_mem _ hx))

theorem osub_none_right (x : Option ℚ) : osub x none = none := by cases x <;> rfl

theorem osub_some_right (x : Option ℚ) (m : ℚ) :
    osub x (some m) = x.map (fun v => v - m) := by cases x <;> rfl

theorem valids_map_optionMap (g : ℚ → ℚ) (l : List (Option ℚ)) :
    valids (l.map (Option.map g)) = (valids l).map g := by
  induction l with
  | nil => rfl
  | cons a l ih =>
      cases a <;> simp only [valids, List.map_cons, List.filterMap_cons, Option.map_none,
        Option.map_some, id] <;> simp only [valids] at ih <;> simp [ih]

theorem sum_map_sub (l : List ℚ) (m : ℚ) :
    (l.map (fun v => v - m)).sum = l.sum - l.length * m := by
  induction l with
  | nil => simp
  | cons a l ih =>
      simp only [List.map_cons, List.sum_cons, ih, List.length_cons]
      push_cast
      ring

/-- Centering any list of optional values by its (missing-skipping) mean
and re-averaging gives exactly zero when any value is defined, and a
missing value otherwise. -/
theorem meanCentered (L : List (Option ℚ)) :
    aggMean (L.map (fun x => osub x (aggMean L))) = none ∨
    aggMean (L.map (fun x => osub x (aggMean L))) = some 0 := by
  by_cases h0 : (valids L).length = 0
  · left
    have hL : aggMean L = none := by rw [aggMean, if_pos h0]
    rw [hL]
    have hnone : valids (L.map (fun x => osub x none)) = [] := by
      apply valids_all_none
      intro x hx
      obtain ⟨a, _, rfl⟩ := List.mem_map.mp hx
      exact osub_none_right a
    rw [aggMean, hnone]
    simp
  · right
    have hn : ((valids L).length : ℚ) ≠ 0 := Nat.cast_ne_zero.mpr h0
    have hμ : aggMean L = some ((valids L).sum / ((valids L).length : ℚ)) := by
      rw [aggMean, if_neg h0]
    rw [hμ]
    simp only [osub_some_right]
    rw [aggMean, valids_map_optionMap, List.length_map]
    rw [if_neg h0]
    have hz : ((valids L).map (fun v => v - (valids L).sum / ((valids L).length : ℚ))).sum = 0 := by
      rw [sum_map_sub]
      field_simp
    rw [hz, zero_div]

theorem axisVals_update (a : DataArray) (d : String) (f : String → Nat) (k : Nat) :
    axisVals a d (Function.update f d k) = axisVals a d f := by
  simp only [axisVals, Function.update_idem]

/-- C5: subtracting the ensemble mean from each member and re-averaging
the differences over the ensemble dimension gives, at every remaining
coordinate, a value that is exactly zero wherever it is defined (and a
missing value exactly where every member is missing) — in the exact
rational model the result is identically zero, a fortiori within any
floating-point tolerance. -/
theorem ensemble_mean_centering (a : DataArray) (h : "ensemble" ∈ a.names) (f : String → Nat) :
    ((a.subB (a.meanDim "ensemble")).meanDim "ensemble").data f = none ∨
    ((a.subB (a.meanDim "ensemble")).meanDim "ensemble").data f = some 0 := by
  have hm : "ensemble" ∈ (a.subB (a.meanDim "ensemble")).names := h
  have hmd : ∀ g : String → Nat,
      (a.meanDim "ensemble").data g = aggMean (axisVals a "ensemble" g) := by
    intro g
    rw [DataArray.meanDim, reduce_data a aggMean "ensemble" h]
  rw [DataArray.meanDim]
  simp only [reduce_data _ aggMean "ensemble" hm]
  have hax : axisVals (a.subB (a.meanDim "ensemble")) "ensemble" f =
      (axisVals a "ensemble" f).map (fun x => osub x (aggMean (axisVals a "ensemble" f))) := by
    simp only [axisVals, DataArray.subB, DataArray.coordsOf, List.map_map]
    apply List.map_congr_left
    intro k _
    simp only [Function.comp]
    rw [hmd, axisVals_update]
    rfl
  rw [hax]
  exact meanCentered (axisVals a "ensemble" f)

/-- Witness for the mean-centering claim at a concrete array with a
missing member. -/
theorem ensemble_mean_centering_witness :
    "ensemble" ∈ arrC5.names ∧
    (((arrC5.subB (arrC5.meanDim "ensemble")).meanDim "ensemble").data fZero = none ∨
     ((arrC5.subB (arrC5.meanDim "ensemble")).meanDim "ensemble").data fZero = some 0) :=
  ⟨by decide, ensemble_mean_centering arrC5 (by decide) fZero⟩

/-- Counterexample to C1 as stated: on a dataset whose precipitation
variable carries an ensemble dimension (as the notebook's does — the
dataset is a 100-member ensemble and the final plot draws one line per
member), the Austin pipeline reduces only `lat` and `lon`, so its result
still has the `ensemble` dimension: it is 2-D (`time` × `ensemble`), not a
1-D time series. -/
theorem austin_annual_max_not_1d :
    (pcp_ann_max_ts dsC1).names = ["time", "ensemble"] ∧
    (pcp_ann_max_ts dsC1).names.length ≠ 1 := by
  decide

/-- Amended C1: selecting the ±0.25° bounding box around Austin, resampling
the precipitation annually by max and reducing jointly over `lat` and
`lon` by max yields a 2-D array over (`time`, `ensemble`) — one
annual-maximum time series per ensemble member — whose time coordinates
are the distinct year labels of the source time axis: every source
timestamp's year appears exactly once, and every resulting coordinate is
the year label of some source timestamp. -/
theorem austin_annual_max_per_member (ds : Dataset) (tc lac loc ec : List Coord)
    (hdims : ds.pcp.dims = [⟨"time", tc⟩, ⟨"lat", lac⟩, ⟨"lon", loc⟩, ⟨"ensemble", ec⟩]) :
    (pcp_ann_max_ts ds).names = ["time", "ensemble"] ∧
    (pcp_ann_max_ts ds).coordsOf "ensemble" = ec ∧
    (pcp_ann_max_ts ds).coordsOf "time" = bucketLabels (labelC yearLabel) tc ∧
    (∀ c ∈ tc, ((pcp_ann_max_ts ds).coordsOf "time").count (labelC yearLabel c) = 1) ∧
    (∀ b ∈ (pcp_ann_max_ts ds).coordsOf "time", ∃ c ∈ tc, b = labelC yearLabel c) := by
  have htx : (ds_tx ds).pcp.dims =
      [⟨"time", tc⟩,
       ⟨"lat", lac.filter (sliceKeep (austinLat - buf) (austinLat + buf))⟩,
       ⟨"lon", loc.filter (sliceKeep (austinLon - buf) (austinLon + buf))⟩,
       ⟨"ensemble", ec⟩] := by
    simp only [ds_tx, Dataset.selSlice, DataArray.selSlice]
    rw [hdims]
    rfl
  have hco : (ds_tx ds).pcp.coordsOf "time" = tc := by
    rw [DataArray.coordsOf, htx]
    rfl
  have hpam : (pcp_ann_max ds).dims =
      [⟨"time", bucketLabels (labelC yearLabel) tc⟩,
       ⟨"lat", lac.filter (sliceKeep (austinLat - buf) (austinLat + buf))⟩,
       ⟨"lon", loc.filter (sliceKeep (austinLon - buf) (austinLon + buf))⟩,
       ⟨"ensemble", ec⟩] := by
    rw [pcp_ann_max, resample_dims, hco, htx]
    rfl
  have hnm : (pcp_ann_max ds).names = ["time", "lat", "lon", "ensemble"] := by
    rw [DataArray.names, hpam]
    rfl
  have hlat : "lat" ∈ (pcp_ann_max ds).names := by
    rw [hnm]; decide
  have hlon : "lon" ∈ (pcp_ann_max ds).names := by
    rw [hnm]; decide
  have hts : (pcp_ann_max_ts ds).dims =
      [⟨"time", bucketLabels (labelC yearLabel) tc⟩, ⟨"ensemble", ec⟩] := by
    rw [pcp_ann_max_ts, reducePair_dims _ aggMax _ _ hlat hlon, hpam]
    rfl
  have hct : (pcp_ann_max_ts ds).coordsOf "time" = bucketLabels (labelC yearLabel) tc := by
    rw [DataArray.coordsOf, hts]
    rfl
  refine ⟨by rw [DataArray.names, hts]; rfl, by rw [DataArray.coordsOf, hts]; rfl, hct, ?_, ?_⟩
  · intro c hc
    rw [hct, bucketLabels, List.count_dedup, if_pos (List.mem_map_of_mem _ hc)]
  · intro b hb
    rw [hct] at hb
    obtain ⟨c, hc, hbc⟩ := List.mem_map.mp (List.mem_dedup.mp hb)
    exact ⟨c, hc, hbc.symm⟩

/-- Witness for the amended Austin claim at a concrete dataset with two
source years and two ensemble members. -/
theorem austin_annual_max_per_member_witness :
    dsC1.pcp.dims = [⟨"time", [.date ⟨1980, 1, 1⟩, .date ⟨1980, 7, 1⟩, .date ⟨1981, 7, 1⟩]⟩,
      ⟨"lat", [.num 30.3]⟩, ⟨"lon", [.num (-97.7)]⟩, ⟨"ensemble", [.idx 0, .idx 1]⟩] ∧
    (pcp_ann_max_ts dsC1).coordsOf "time" =
      bucketLabels (labelC yearLabel)
        [.date ⟨1980, 1, 1⟩, .date ⟨1980, 7, 1⟩, .date ⟨1981, 7, 1⟩] :=
  ⟨rfl,
   (austin_annual_max_per_member dsC1
      [.date ⟨1980, 1, 1⟩, .date ⟨1980, 7, 1⟩, .date ⟨1981, 7, 1⟩]
      [.num 30.3] [.num (-97.7)] [.idx 0, .idx 1] rfl).2.2.1⟩

theorem insertSorted_perm (s : String) (l : List String) :
    (insertSorted s l).Perm (s :: l) := by
  induction l with
  | nil => exact List.Perm.refl _
  | cons x xs ih =>
      rw [insertSorted]
      by_cases h : s ≤ x
      · rw [if_pos h]
      · rw [if_neg h]
        exact (List.Perm.cons x ih).trans (List.Perm.swap s x xs)

theorem sortStrings_perm (l : List String) : (sortStrings l).Perm l := by
  induction l with
  | nil => exact List.Perm.refl _
  | cons x xs ih => exact (insertSorted_perm x (sortStrings xs)).trans (List.Perm.cons x ih)

theorem insertSorted_sorted (s : String) (l : List String) (h : l.Sorted (· ≤ ·)) :
    (insertSorted s l).Sorted (· ≤ ·) := by
  induction l with
  | nil => simp [insertSorted]
  | cons x xs ih =>
      rw [insertSorted]
      rw [List.sorted_cons] at h
      obtain ⟨hx, hxs⟩ := h
      by_cases hs : s ≤ x
      · rw [if_pos hs, List.sorted_cons]
        refine ⟨?_, ?_⟩
        · intro b hb
          rcases List.mem_cons.mp hb with rfl | hb
          · exact hs
          · exact le_trans hs (hx b hb)
        · rw [List.sorted_cons]
          exact ⟨hx, hxs⟩
      · rw [if_neg hs, List.sorted_cons]
        refine ⟨?_, ih hxs⟩
        intro b hb
        rcases List.mem_cons.mp ((insertSorted_perm s xs).mem_iff.mp hb) with rfl | hb₂
        · exact le_of_not_le hs
        · exact hx b hb₂

theorem sortStrings_sorted (l : List String) : (sortStrings l).Sorted (· ≤ ·) := by
  induction l with
  | nil => simp [sortStrings]
  | cons x xs ih => exact insertSorted_sorted x _ ih

theorem four_sorted : List.Sorted (· ≤ ·) (["DJF", "JJA", "MAM", "SON"] : List String) := by
  simp only [List.sorted_cons, List.mem_cons, List.not_mem_nil, or_false, String.le_iff_toList_le]
  refine ⟨fun b hb => ?_, ⟨fun b hb => ?_, ⟨fun b hb => ?_, fun b hb => hb.elim, List.sorted_nil⟩⟩⟩
  · rcases hb with rfl | rfl | rfl <;> decide
  · rcases hb with rfl | rfl <;> decide
  · rcases hb with rfl
    decide

theorem sortStrings_eq_four (l : List String) (hnd : l.Nodup)
    (hmem : ∀ s, s ∈ l ↔ s ∈ ["DJF", "JJA", "MAM", "SON"]) :
    sortStrings l = ["DJF", "JJA", "MAM", "SON"] := by
  refine List.eq_of_perm_of_sorted ((sortStrings_perm l).trans ?_) (sortStrings_sorted l)
    four_sorted
  exact (List.perm_ext_iff_of_nodup hnd (by decide)).mpr hmem

theorem seasonOf_mem (t : Date) : seasonOf t ∈ ["DJF", "MAM", "JJA", "SON"] := by
  rw [seasonOf]
  split
  · simp
  · split
    · simp
    · split <;> simp

theorem seasonKeys_eq (cs : List Coord) (hd : ∀ c ∈ cs, c.isDate = true)
    (hall : ∀ s ∈ ["DJF", "JJA", "MAM", "SON"], s ∈ cs.map seasonC) :
    seasonKeys cs = ["DJF", "JJA", "MAM", "SON"] := by
  rw [seasonKeys]
  apply sortStrings_eq_four _ (List.nodup_dedup _)
  intro s
  rw [List.mem_dedup]
  constructor
  · intro hs
    obtain ⟨c, hc, rfl⟩ := List.mem_map.mp hs
    have hcd := hd c hc
    cases c with
    | date t =>
        have h4 := seasonOf_mem t
        simp only [seasonC]
        simp only [List.mem_cons, List.not_mem_nil, or_false] at h4 ⊢
        tauto
    | num q => simp [Coord.isDate] at hcd
    | str s₀ => simp [Coord.isDate] at hcd
    | idx n => simp [Coord.isDate] at hcd
  · intro hs
    exact hall s hs

/-- C6: the natural season coordinate produced by the grouping step is the
alphabetical order DJF, JJA, MAM, SON; the explicit re-indexing
`sel(season=['DJF', 'MAM', 'JJA', 'SON'])` replaces it by the fixed
display order Dec-Feb, Mar-May, Jun-Aug, Sep-Nov; and looking any season
up by its label reads the same value before and after the reordering, so
the reordering only changes the enumeration order. -/
theorem season_display_order (ds : Dataset) (tc lac loc ec : List Coord)
    (hdims : ds.pcp.dims = [⟨"time", tc⟩, ⟨"lat", lac⟩, ⟨"lon", loc⟩, ⟨"ensemble", ec⟩])
    (hdates : ∀ c ∈ tc, c.isDate = true)
    (hall : ∀ s ∈ ["DJF", "JJA", "MAM", "SON"],
      s ∈ (bucketLabels (labelC qsMarLabel) tc).map seasonC) :
    (seasonal_snow_raw ds).coordsOf "season" = (["DJF", "JJA", "MAM", "SON"]).map Coord.str ∧
    (seasonal_snow ds).coordsOf "season" = seasonFixedOrder.map Coord.str ∧
    ∀ s ∈ seasonFixedOrder, ∀ f : String → Nat,
      valueAtSeason (seasonal_snow ds) s f = valueAtSeason (seasonal_snow_raw ds) s f := by
  have hcot : (ds.pcp.whereGate ds.t_mean (fun t => decide (t < 0))).coordsOf "time" = tc := by
    rw [whereGate_coordsOf, DataArray.coordsOf, hdims]
    rfl
  have hsnowdims : (da_snow ds).dims =
      [⟨"time", bucketLabels (labelC qsMarLabel) tc⟩, ⟨"lat", lac⟩, ⟨"lon", loc⟩,
       ⟨"ensemble", ec⟩] := by
    rw [da_snow, resample_dims, hcot, whereGate_dims, hdims]
    rfl
  have hXdims : ((da_snow ds).iselSlice "ensemble" 0 4).dims =
      [⟨"time", bucketLabels (labelC qsMarLabel) tc⟩, ⟨"lat", lac⟩, ⟨"lon", loc⟩,
       ⟨"ensemble", (ec.drop 0).take (4 - 0)⟩] := by
    rw [iselSlice_dims, hsnowdims]
    rfl
  have hXco : ((da_snow ds).iselSlice "ensemble" 0 4).coordsOf "time" =
      bucketLabels (labelC qsMarLabel) tc := by
    rw [DataArray.coordsOf, hXdims]
    rfl
  have hqd : ∀ c ∈ bucketLabels (labelC qsMarLabel) tc, c.isDate = true := by
    intro c hc
    obtain ⟨c₀, hc₀, rfl⟩ := List.mem_map.mp (List.mem_dedup.mp hc)
    have h₀ := hdates c₀ hc₀
    cases c₀ with
    | date t => rfl
    | num q => simp [Coord.isDate] at h₀
    | str s₀ => simp [Coord.isDate] at h₀
    | idx n => simp [Coord.isDate] at h₀
  have hkeys : seasonKeys (bucketLabels (labelC qsMarLabel) tc) =
      ["DJF", "JJA", "MAM", "SON"] := seasonKeys_eq _ hqd hall
  have hrawdims : (seasonal_snow_raw ds).dims =
      [⟨"season", (["DJF", "JJA", "MAM", "SON"]).map Coord.str⟩, ⟨"lat", lac⟩, ⟨"lon", loc⟩,
       ⟨"ensemble", (ec.drop 0).take (4 - 0)⟩] := by
    rw [seasonal_snow_raw, groupbySeasonMean_dims, hXco, hkeys, hXdims]
    rfl
  have hraw : (seasonal_snow_raw ds).coordsOf "season" =
      (["DJF", "JJA", "MAM", "SON"]).map Coord.str := by
    rw [DataArray.coordsOf, hrawdims]
    rfl
  have hsordims : (seasonal_snow ds).dims =
      [⟨"season", seasonFixedOrder.map Coord.str⟩, ⟨"lat", lac⟩, ⟨"lon", loc⟩,
       ⟨"ensemble", (ec.drop 0).take (4 - 0)⟩] := by
    rw [seasonal_snow, selLabels_dims, hrawdims]
    rfl
  have hsor : (seasonal_snow ds).coordsOf "season" = seasonFixedOrder.map Coord.str := by
    rw [DataArray.coordsOf, hsordims]
    rfl
  refine ⟨hraw, hsor, ?_⟩
  intro s hs f
  fin_cases hs
  · have i₁ : seasonIdx (seasonal_snow ds) "DJF" = 0 := by
      rw [seasonIdx, hsor]
      decide
    have i₂ : seasonIdx (seasonal_snow_raw ds) "DJF" = 0 := by
      rw [seasonIdx, hraw]
      decide
    rw [valueAtSeason, valueAtSeason, i₁, i₂, seasonal_snow, selLabels_data,
      Function.update_same]
    have hg : (seasonFixedOrder.map Coord.str).getD 0 (.idx 0) = Coord.str "DJF" := rfl
    rw [hg, hraw]
    have hf : ((["DJF", "JJA", "MAM", "SON"].map Coord.str).findIdx
        (fun c => c == Coord.str "DJF")) = 0 := by decide
    rw [hf, Function.update_idem]
  · have i₁ : seasonIdx (seasonal_snow ds) "MAM" = 1 := by
      rw [seasonIdx, hsor]
      decide
    have i₂ : seasonIdx (seasonal_snow_raw ds) "MAM" = 2 := by
      rw [seasonIdx, hraw]
      decide
    rw [valueAtSeason, valueAtSeason, i₁, i₂, seasonal_snow, selLabels_data,
      Function.update_same]
    have hg : (seasonFixedOrder.map Coord.str).getD 1 (.idx 0) = Coord.str "MAM" := rfl
    rw [hg, hraw]
    have hf : ((["DJF", "JJA", "MAM", "SON"].map Coord.str).findIdx
        (fun c => c == Coord.str "MAM")) = 2 := by decide
    rw [hf, Function.update_idem]
  · have i₁ : seasonIdx (seasonal_snow ds) "JJA" = 2 := by
      rw [seasonIdx, hsor]
      decide
    have i₂ : seasonIdx (seasonal_snow_raw ds) "JJA" = 1 := by
      rw [seasonIdx, hraw]
      decide
    rw [valueAtSeason, valueAtSeason, i₁, i₂, seasonal_snow, selLabels_data,
      Function.update_same]
    have hg : (seasonFixedOrder.map Coord.str).getD 2 (.idx 0) = Coord.str "JJA" := rfl
    rw [hg, hraw]
    have hf : ((["DJF", "JJA", "MAM", "SON"].map Coord.str).findIdx
        (fun c => c == Coord.str "JJA")) = 1 := by decide
    rw [hf, Function.update_idem]
  · have i₁ : seasonIdx (seasonal_snow ds) "SON" = 3 := by
      rw [seasonIdx, hsor]
      decide
    have i₂ : seasonIdx (seasonal_snow_raw ds) "SON" = 3 := by
      rw [seasonIdx, hraw]
      decide
    rw [valueAtSeason, valueAtSeason, i₁, i₂, seasonal_snow, selLabels_data,
      Function.update_same]
    have hg : (seasonFixedOrder.map Coord.str).getD 3 (.idx 0) = Coord.str "SON" := rfl
    rw [hg, hraw]
    have hf : ((["DJF", "JJA", "MAM", "SON"].map Coord.str).findIdx
        (fun c => c == Coord.str "SON")) = 3 := by decide
    rw [hf, Function.update_idem]

/-- Witness for the season display order at a concrete dataset with
timestamps in all four seasons. -/
theorem season_display_order_witness :
    dsW6.pcp.dims = [⟨"time", [.date ⟨1980, 1, 15⟩, .date ⟨1980, 3, 15⟩, .date ⟨1980, 6, 15⟩,
        .date ⟨1980, 9, 15⟩, .date ⟨1980, 12, 15⟩]⟩,
      ⟨"lat", [.num 40]⟩, ⟨"lon", [.num (-100)]⟩,
      ⟨"ensemble", (List.range 5).map Coord.idx⟩] ∧
    (∀ c ∈ ([.date ⟨1980, 1, 15⟩, .date ⟨1980, 3, 15⟩, .date ⟨1980, 6, 15⟩,
        .date ⟨1980, 9, 15⟩, .date ⟨1980, 12, 15⟩] : List Coord), c.isDate = true) ∧
    (∀ s ∈ ["DJF", "JJA", "MAM", "SON"],
      s ∈ (bucketLabels (labelC qsMarLabel)
        [.date ⟨1980, 1, 15⟩, .date ⟨1980, 3, 15⟩, .date ⟨1980, 6, 15⟩,
         .date ⟨1980, 9, 15⟩, .date ⟨1980, 12, 15⟩]).map seasonC) ∧
    (seasonal_snow_raw dsW6).coordsOf "season" = (["DJF", "JJA", "MAM", "SON"]).map Coord.str ∧
    (seasonal_snow dsW6).coordsOf "season" = seasonFixedOrder.map Coord.str := by
  have h₁ : dsW6.pcp.dims = _ := rfl
  have h₂ : ∀ c ∈ ([.date ⟨1980, 1, 15⟩, .date ⟨1980, 3, 15⟩, .date ⟨1980, 6, 15⟩,
      .date ⟨1980, 9, 15⟩, .date ⟨1980, 12, 15⟩] : List Coord), c.isDate = true := by decide
  have h₃ : ∀ s ∈ ["DJF", "JJA", "MAM", "SON"],
      s ∈ (bucketLabels (labelC qsMarLabel)
        [.date ⟨1980, 1, 15⟩, .date ⟨1980, 3, 15⟩, .date ⟨1980, 6, 15⟩,
         .date ⟨1980, 9, 15⟩, .date ⟨1980, 12, 15⟩]).map seasonC := by decide
  have h := season_display_order dsW6
    [.date ⟨1980, 1, 15⟩, .date ⟨1980, 3, 15⟩, .date ⟨1980, 6, 15⟩,
     .date ⟨1980, 9, 15⟩, .date ⟨1980, 12, 15⟩]
    [.num 40] [.num (-100)] ((List.range 5).map Coord.idx) rfl h₂ h₃
  exact ⟨rfl, h₂, h₃, h.1, h.2.1⟩

theorem mask_eq (ds : Dataset) (f : String → Nat) :
    (ds.pcp.whereGate ds.t_mean (fun v => decide (v < 0))).data f =
      maskedVal (ds.t_mean.data f) (ds.pcp.data f) := by
  simp only [DataArray.whereGate, maskedVal]
  cases ds.t_mean.data f with
  | none => rfl
  | some t => by_cases h : t < 0 <;> simp [h]

/-- C9: the seasonal-snowfall pipeline (i) keeps exactly the first four
ensemble members, (ii) masks precipitation to a missing value — not zero —
at every cell whose mean temperature is missing or not strictly below 0,
(iii) buckets time into quarters starting in March (labels Mar/Jun/Sep/Dec
1st, with January and February joining the previous December), and
(iv) produces, per season key and point, the mean over that season's
quarter buckets of the per-bucket sums of the masked precipitation. -/
theorem seasonal_snow_semantics (ds : Dataset) (tc lac loc ec : List Coord)
    (hdims : ds.pcp.dims = [⟨"time", tc⟩, ⟨"lat", lac⟩, ⟨"lon", loc⟩, ⟨"ensemble", ec⟩]) :
    (seasonal_snow_raw ds).coordsOf "ensemble" = ec.take 4 ∧
    (∀ f, (ds.pcp.whereGate ds.t_mean (fun v => decide (v < 0))).data f =
      maskedVal (ds.t_mean.data f) (ds.pcp.data f)) ∧
    ((∀ t pc, 0 ≤ t → maskedVal (some t) pc = none) ∧
     (∀ t pc, t < 0 → maskedVal (some t) pc = pc) ∧
     (∀ pc, maskedVal none pc = none)) ∧
    (∀ t : Date,
      (3 ≤ t.m ∧ t.m ≤ 5 → qsMarLabel t = ⟨t.y, 3, 1⟩) ∧
      (6 ≤ t.m ∧ t.m ≤ 8 → qsMarLabel t = ⟨t.y, 6, 1⟩) ∧
      (9 ≤ t.m ∧ t.m ≤ 11 → qsMarLabel t = ⟨t.y, 9, 1⟩) ∧
      (t.m = 12 → qsMarLabel t = ⟨t.y, 12, 1⟩) ∧
      (t.m ≤ 2 → qsMarLabel t = ⟨t.y - 1, 12, 1⟩)) ∧
    (∀ f, (seasonal_snow_raw ds).data f =
      aggMean ((keepPositions
          (fun c => seasonC c ==
            (seasonKeys (bucketLabels (labelC qsMarLabel) tc)).getD (f "season") "")
          (bucketLabels (labelC qsMarLabel) tc)).map
        (fun p => aggSum ((keepPositions
            (fun c => labelC qsMarLabel c ==
              (bucketLabels (labelC qsMarLabel) tc).getD p (.idx 0)) tc).map
          (fun p₂ => maskedVal (ds.t_mean.data (Function.update f "time" p₂))
            (ds.pcp.data (Function.update f "time" p₂))))))) := by
  have hcot : (ds.pcp.whereGate ds.t_mean (fun t => decide (t < 0))).coordsOf "time" = tc := by
    rw [whereGate_coordsOf, DataArray.coordsOf, hdims]
    rfl
  have hsnowdims : (da_snow ds).dims =
      [⟨"time", bucketLabels (labelC qsMarLabel) tc⟩, ⟨"lat", lac⟩, ⟨"lon", loc⟩,
       ⟨"ensemble", ec⟩] := by
    rw [da_snow, resample_dims, hcot, whereGate_dims, hdims]
    rfl
  have hXdims : ((da_snow ds).iselSlice "ensemble" 0 4).dims =
      [⟨"time", bucketLabels (labelC qsMarLabel) tc⟩, ⟨"lat", lac⟩, ⟨"lon", loc⟩,
       ⟨"ensemble", (ec.drop 0).take (4 - 0)⟩] := by
    rw [iselSlice_dims, hsnowdims]
    rfl
  have hXco : ((da_snow ds).iselSlice "ensemble" 0 4).coordsOf "time" =
      bucketLabels (labelC qsMarLabel) tc := by
    rw [DataArray.coordsOf, hXdims]
    rfl
  refine ⟨?_, mask_eq ds, ⟨?_, ?_, ?_⟩, ?_, ?_⟩
  · rw [seasonal_snow_raw, DataArray.coordsOf, groupbySeasonMean_dims, hXdims]
    rfl
  · intro t pc ht
    simp [maskedVal, not_lt.mpr ht]
  · intro t pc ht
    simp [maskedVal, ht]
  · intro pc
    rfl
  · intro t
    refine ⟨?_, ?_, ?_, ?_, ?_⟩ <;> intro h <;> rw [qsMarLabel]
    · rw [if_neg (by omega)]
      simp only [Date.mk.injEq, and_true, true_and]
      omega
    · rw [if_neg (by omega)]
      simp only [Date.mk.injEq, and_true, true_and]
      omega
    · rw [if_neg (by omega)]
      simp only [Date.mk.injEq, and_true, true_and]
      omega
    · rw [if_neg (by omega)]
      simp only [Date.mk.injEq, and_true, true_and]
      omega
    · rw [if_pos (by omega)]
  · intro f
    rw [seasonal_snow_raw, groupbySeasonMean_data, hXco]
    apply congrArg aggMean
    apply List.map_congr_left
    intro p hp
    rw [iselSlice_data]
    have h1 : (Function.update f "time" p) "ensemble" + 0 = f "ensemble" := by
      rw [Nat.add_zero, Function.update_noteq (by decide : ("ensemble" : String) ≠ "time")]
    rw [h1]
    rw [Function.update_comm (by decide : ("time" : String) ≠ "ensemble"),
      Function.update_eq_self]
    rw [da_snow, resample_data, hcot, Function.update_same]
    simp only [Function.update_idem]
    apply congrArg aggSum
    apply List.map_congr_left
    intro p₂ _
    exact mask_eq ds (Function.update f "time" p₂)

/-- Witness for the seasonal-snowfall semantics at a concrete dataset. -/
theorem seasonal_snow_semantics_witness :
    dsW6.pcp.dims = [⟨"time", [.date ⟨1980, 1, 15⟩, .date ⟨1980, 3, 15⟩, .date ⟨1980, 6, 15⟩,
        .date ⟨1980, 9, 15⟩, .date ⟨1980, 12, 15⟩]⟩,
      ⟨"lat", [.num 40]⟩, ⟨"lon", [.num (-100)]⟩,
      ⟨"ensemble", (List.range 5).map Coord.idx⟩] ∧
    (seasonal_snow_raw dsW6).coordsOf "ensemble" = ((List.range 5).map Coord.idx).take 4 :=
  ⟨rfl,
   (seasonal_snow_semantics dsW6
      [.date ⟨1980, 1, 15⟩, .date ⟨1980, 3, 15⟩, .date ⟨1980, 6, 15⟩,
       .date ⟨1980, 9, 15⟩, .date ⟨1980, 12, 15⟩]
      [.num 40] [.num (-100)] ((List.range 5).map Coord.idx) rfl).1⟩

end GMet
